import Mathlib

/-!
# Verification of the platform price/availability ranking algorithm

Shallow embedding of the cart / price-comparison logic of the
`quick-price-checker` repository:

* `getPriceInfo` — per-entry price resolution in the cart item display
  (`CartItem.tsx`);
* `getCartTotal` — the cart total computation in the shop context
  (`ShopContext`, shown in the performance-notes file);
* `getUnavailableItems`, `areAllItemsAvailable`, `sortedPlatforms`,
  `bestPlatform` — the platform comparison / ranking logic
  (`PriceComparison.tsx`).

JavaScript's `Array.prototype.sort` is required by the ECMAScript
specification (ES2019 and later) to be stable; with a consistent
comparator it therefore produces the unique stable sorted permutation,
which we model with `List.insertionSort` (a stable sort) over the
comparator's induced relation.

Currency amounts are modelled as natural numbers (the spec describes a
non-negative numeric amount in a single implied currency unit); totals
are integers because the code uses `-1` as the sentinel for unavailable
platforms.
-/

namespace QuickPrice

/-- Platform identities: an enumerable, fixed small set of delivery
platforms (the `Platform` string-union type of `ShopContext`).  As
non-empty string literals, platform values are always truthy in the
JavaScript source. -/
inductive Platform where
  | blinkit
  | zepto
  | swiggy
  | bigbasket
  | dunzo
  deriving DecidableEq, Repr

/-- One `(platform, price, available)` tuple of a product's price list. -/
structure PriceInfo where
  platform : Platform
  price : Nat
  available : Bool
  deriving DecidableEq, Repr

/-- A product: identity, display name and its per-platform price list. -/
structure Product where
  id : String
  name : String
  prices : List PriceInfo
  deriving DecidableEq, Repr

/-- A cart entry: product, quantity, and an optional pinned platform
(`item.platform` in the source, `undefined` when not pinned). -/
structure CartItem where
  product : Product
  quantity : Nat
  platform : Option Platform
  deriving DecidableEq, Repr

/-- An element of the platform catalog (`platforms` in `ShopContext`):
identity plus display name. -/
structure PlatformInfo where
  id : Platform
  name : String
  deriving DecidableEq, Repr

/-- Translation of `product.prices.find(p => p.platform === platform)`. -/
def findPrice (prices : List PriceInfo) (p : Platform) : Option PriceInfo :=
  prices.find? (fun pi => pi.platform == p)

/-- Translation of `CartItem.tsx` `getPriceInfo`:
`const targetPlatform = platformFilter || platform;`
`if (!targetPlatform) return null;`
`return product.prices.find(p => p.platform === targetPlatform);`
(Platform values are non-empty strings, hence truthy, so `||` picks
`platformFilter` whenever it is present.) -/
def getPriceInfo (item : CartItem) (platformFilter : Option Platform) : Option PriceInfo :=
  match platformFilter.orElse (fun _ => item.platform) with
  | none => none
  | some t => findPrice item.product.prices t

/-- Translation of `PriceComparison.tsx` `getUnavailableItems`:
`cart.filter(item => { const priceInfo = item.product.prices.find(...);`
`return !priceInfo || !priceInfo.available; })`. -/
def getUnavailableItems (cart : List CartItem) (p : Platform) : List CartItem :=
  cart.filter (fun item =>
    match findPrice item.product.prices p with
    | none => true
    | some pi => !pi.available)

/-- Translation of `PriceComparison.tsx` `areAllItemsAvailable`:
`cart.every(item => { const priceInfo = ...; return priceInfo && priceInfo.available; })`. -/
def areAllItemsAvailable (cart : List CartItem) (p : Platform) : Bool :=
  cart.all (fun item =>
    match findPrice item.product.prices p with
    | none => false
    | some pi => pi.available)

/-- Translation of the `ShopContext` `getCartTotal(platform?)` callback:
`cart.reduce((total, item) => {`
`  if (platform && item.platform !== platform) return total;`
`  const priceInfo = item.product.prices.find(p => p.platform === (item.platform || selectedPlatform));`
`  if (priceInfo && priceInfo.available) return total + priceInfo.price * item.quantity;`
`  return total; }, 0)`.
`selectedPlatform` is the provider's hidden state, threaded here as an
explicit argument; the optional `platform` parameter is an `Option`. -/
def getCartTotal (cart : List CartItem) (selectedPlatform : Platform)
    (platform : Option Platform) : Nat :=
  cart.foldl (fun total item =>
    if platform.isSome ∧ item.platform ≠ platform then total
    else
      match findPrice item.product.prices (item.platform.getD selectedPlatform) with
      | some pi => if pi.available then total + pi.price * item.quantity else total
      | none => total) 0

/-- The record built for each platform by the `.map` step of
`sortedPlatforms`: `{...platform, unavailableItems, available, total}`. -/
structure PlatRes where
  id : Platform
  name : String
  unavailableItems : List CartItem
  available : Bool
  total : Int
  deriving DecidableEq, Repr

/-- One element of the `.map` step of `sortedPlatforms`:
`{...platform, unavailableItems: getUnavailableItems(platform.id),`
` available: areAllItemsAvailable(platform.id),`
` total: areAllItemsAvailable(platform.id) ? getCartTotal(platform.id) : -1}`. -/
def platformResult (cart : List CartItem) (selectedPlatform : Platform)
    (pl : PlatformInfo) : PlatRes :=
  { id := pl.id
    name := pl.name
    unavailableItems := getUnavailableItems cart pl.id
    available := areAllItemsAvailable cart pl.id
    total := if areAllItemsAvailable cart pl.id then
        (getCartTotal cart selectedPlatform (some pl.id) : Int)
      else -1 }

/-- The freshly allocated array produced by `platforms.map(...)` in
`sortedPlatforms`, before sorting. -/
def mappedResults (cart : List CartItem) (selectedPlatform : Platform)
    (platforms : List PlatformInfo) : List PlatRes :=
  platforms.map (platformResult cart selectedPlatform)

/-- The comparator passed to `.sort`:
`if (a.available && !b.available) return -1;`
`if (!a.available && b.available) return 1;`
`return a.total - b.total;`. -/
def compareResults (a b : PlatRes) : Int :=
  if a.available && !b.available then -1
  else if !a.available && b.available then 1
  else a.total - b.total

/-- The non-strict order induced by the comparator: `a` may be placed
before `b` exactly when the comparator does not demand the opposite
order. -/
def resRel (a b : PlatRes) : Prop := compareResults a b ≤ 0

instance : DecidableRel resRel := fun a b =>
  inferInstanceAs (Decidable (compareResults a b ≤ 0))

/-- Translation of `sortedPlatforms` of `PriceComparison.tsx`: map each platform of the
catalog to its result record, then stable-sort by the comparator. -/
def sortedPlatforms (cart : List CartItem) (selectedPlatform : Platform)
    (platforms : List PlatformInfo) : List PlatRes :=
  List.insertionSort resRel (mappedResults cart selectedPlatform platforms)

/-- Translation of `const bestPlatform = sortedPlatforms.find(p => p.available);`. -/
def bestPlatform (cart : List CartItem) (selectedPlatform : Platform)
    (platforms : List PlatformInfo) : Option PlatRes :=
  (sortedPlatforms cart selectedPlatform platforms).find? (fun p => p.available)

/-! ## Helper layer: the per-item contribution of `getCartTotal` -/

/-- Amount a single cart entry adds to `getCartTotal` (the body of the
`reduce`, with the running total factored out). -/
def itemContribution (selectedPlatform : Platform) (platform : Option Platform)
    (item : CartItem) : Nat :=
  if platform.isSome ∧ item.platform ≠ platform then 0
  else
    match findPrice item.product.prices (item.platform.getD selectedPlatform) with
    | some pi => if pi.available then pi.price * item.quantity else 0
    | none => 0

lemma getCartTotal_eq_sum (cart : List CartItem) (sel : Platform)
    (plat : Option Platform) :
    getCartTotal cart sel plat = (cart.map (itemContribution sel plat)).sum := by
  have key : ∀ (l : List CartItem) (acc : Nat),
      l.foldl (fun total item =>
        if plat.isSome ∧ item.platform ≠ plat then total
        else
          match findPrice item.product.prices (item.platform.getD sel) with
          | some pi => if pi.available then total + pi.price * item.quantity else total
          | none => total) acc = acc + (l.map (itemContribution sel plat)).sum := by
    intro l
    induction l with
    | nil => intro acc; simp
    | cons i l ih =>
      intro acc
      have hstep : (if plat.isSome ∧ i.platform ≠ plat then acc
          else
            match findPrice i.product.prices (i.platform.getD sel) with
            | some pi => if pi.available then acc + pi.price * i.quantity else acc
            | none => acc) = acc + itemContribution sel plat i := by
        unfold itemContribution
        by_cases h : plat.isSome ∧ i.platform ≠ plat
        · simp [h]
        · simp only [if_neg h]
          cases hf : findPrice i.product.prices (i.platform.getD sel) with
          | none => simp
          | some pi => by_cases ha : pi.available <;> simp [ha]
      rw [List.foldl_cons, hstep, ih, List.map_cons, List.sum_cons, Nat.add_assoc]
  simpa [getCartTotal] using key cart 0

/-! ## Concrete data

`productA` and friends realise the worked example of the spec (section 8):
a single unpinned cart entry, quantity 2, priced ₹10 and available on
`blinkit` (the spec's platform X), priced ₹8 but unavailable on `zepto`
(the spec's platform Y). -/

def productA : Product :=
  { id := "productA", name := "Product A",
    prices := [⟨Platform.blinkit, 10, true⟩, ⟨Platform.zepto, 8, false⟩] }

def exampleCart : List CartItem := [⟨productA, 2, none⟩]

def examplePlatforms : List PlatformInfo :=
  [⟨Platform.blinkit, "Blinkit"⟩, ⟨Platform.zepto, "Zepto"⟩]

/-- A product available on both `blinkit` (₹5) and `zepto` (₹7). -/
def productB : Product :=
  { id := "productB", name := "Product B",
    prices := [⟨Platform.blinkit, 5, true⟩, ⟨Platform.zepto, 7, true⟩] }

/-- A cart entry pinned to `zepto`. -/
def pinnedItem : CartItem := ⟨productB, 1, some Platform.zepto⟩

/-- Copy of `exampleCart` in which the price stored in the *unavailable*
`zepto` tuple has been changed from 8 to 999. -/
def exampleCartAlt : List CartItem :=
  [⟨{ id := "productA", name := "Product A",
      prices := [⟨Platform.blinkit, 10, true⟩, ⟨Platform.zepto, 999, false⟩] }, 2, none⟩]

/-! ## C1 -/

/-- C1: on the spec's own worked example (one unpinned entry, quantity 2,
₹10 available on X = `blinkit`), the code computes `total(X) = 0`, not the
`20` the claim demands: `getCartTotal(P)` skips every entry whose pinned
platform is not `P`, so unpinned entries never contribute.  The ranked
output is X available with total 0, Y unavailable with total −1, and X is
still reported as the best deal. -/
theorem C1_spec_example_total_is_zero :
    (sortedPlatforms exampleCart Platform.blinkit examplePlatforms).map
        (fun r => (r.id, r.available, r.total)) =
      [(Platform.blinkit, true, 0), (Platform.zepto, false, -1)] ∧
    getCartTotal exampleCart Platform.blinkit (some Platform.blinkit) ≠ 20 ∧
    (bestPlatform exampleCart Platform.blinkit examplePlatforms).map
        (fun r => (r.id, r.total)) = some (Platform.blinkit, 0) := by
  decide

/-! ## C2 -/

/-- C2 counterexample: for the entry pinned to `zepto` viewed under context
platform `blinkit`, `CartItem`'s `getPriceInfo` returns the `blinkit`
tuple, not the pinned `zepto` tuple the claim requires; meanwhile
`getCartTotal` under context `blinkit` contributes 0 for the entry
(it skips entries not pinned to the context platform), so the two sites
also disagree with each other. -/
theorem C2_pinned_entry_counterexample :
    getPriceInfo pinnedItem (some Platform.blinkit) ≠
      findPrice pinnedItem.product.prices Platform.zepto ∧
    getPriceInfo pinnedItem (some Platform.blinkit) =
      some ⟨Platform.blinkit, 5, true⟩ ∧
    getCartTotal [pinnedItem] Platform.blinkit (some Platform.blinkit) = 0 := by
  decide

/-- C2 amended: the display resolution (`getPriceInfo`) uses the context
platform's tuple whenever a context platform is given, and falls back to
the entry's pinned platform only when there is none; the total computation
(`getCartTotal`) counts an entry under a context platform only when the
entry's pinned platform equals that context platform, and then prices it
by that platform's tuple.  The two resolutions therefore agree exactly on
the entries that `getCartTotal` counts. -/
theorem C2_resolution_amended (item : CartItem) (c : Platform) (sel : Platform) :
    getPriceInfo item (some c) = findPrice item.product.prices c
    ∧ getPriceInfo item none =
        (match item.platform with
         | some q => findPrice item.product.prices q
         | none => none)
    ∧ getCartTotal [item] sel (some c) =
        (if item.platform = some c then
          match findPrice item.product.prices c with
          | some pi => if pi.available then pi.price * item.quantity else 0
          | none => 0
        else 0) := by
  refine ⟨rfl, ?_, ?_⟩
  · cases hq : item.platform <;> simp [getPriceInfo, hq, Option.orElse]
  · rw [getCartTotal_eq_sum]
    by_cases h : item.platform = some c
    · simp [itemContribution, h]
    · simp [itemContribution, h]

/-! ## C6 -/

/-- Core of C6: a platform passes `areAllItemsAvailable` exactly when its
`getUnavailableItems` list is empty — the two predicates on a cart entry
are each other's negation. -/
lemma allAvailable_iff_no_unavailable (cart : List CartItem) (p : Platform) :
    areAllItemsAvailable cart p = true ↔ getUnavailableItems cart p = [] := by
  unfold areAllItemsAvailable getUnavailableItems
  rw [List.all_eq_true, List.filter_eq_nil_iff]
  constructor
  · intro h item hi
    have h2 := h item hi
    cases hf : findPrice item.product.prices p with
    | none => simp_all
    | some pi => simp_all
  · intro h item hi
    have h2 := h item hi
    cases hf : findPrice item.product.prices p with
    | none => simp_all
    | some pi => simp_all

/-- C6: in every result record produced by `evaluate` (the mapped-and-sorted
platform list), the `available` flag is `true` iff the `unavailableItems`
list is empty. -/
theorem C6_available_iff_no_unavailable_items (cart : List CartItem)
    (sel : Platform) (platforms : List PlatformInfo) :
    ∀ res ∈ sortedPlatforms cart sel platforms,
      (res.available = true ↔ res.unavailableItems = []) := by
  intro res hres
  rw [sortedPlatforms, List.mem_insertionSort] at hres
  obtain ⟨pl, _, rfl⟩ := List.mem_map.mp hres
  exact allAvailable_iff_no_unavailable cart pl.id

/-- Witness for C6 at the spec's example: the `blinkit` result record. -/
theorem C6_available_iff_no_unavailable_items_witness :
    ((⟨Platform.blinkit, "Blinkit", [], true, 20⟩ : PlatRes).available = true ↔
      (⟨Platform.blinkit, "Blinkit", [], true, 20⟩ : PlatRes).unavailableItems = []) :=
  C6_available_iff_no_unavailable_items [⟨productA, 2, some Platform.blinkit⟩]
    Platform.blinkit examplePlatforms _ (by decide)

/-! ## C9 -/

/-- When `getCartTotal` is called with an explicit platform argument (as
`sortedPlatforms` always does), an entry is only counted when its pinned
platform equals that argument, so the hidden `selectedPlatform` fallback
is never consulted. -/
lemma itemContribution_sel_irrel (sel₁ sel₂ : Platform) (p : Platform)
    (item : CartItem) :
    itemContribution sel₁ (some p) item = itemContribution sel₂ (some p) item := by
  unfold itemContribution
  by_cases h : (some p).isSome ∧ item.platform ≠ some p
  · simp [h]
  · have hp : item.platform = some p := by
      by_contra hc
      exact h ⟨rfl, hc⟩
    simp [hp]

lemma getCartTotal_sel_irrel (cart : List CartItem) (sel₁ sel₂ : Platform)
    (p : Platform) :
    getCartTotal cart sel₁ (some p) = getCartTotal cart sel₂ (some p) := by
  rw [getCartTotal_eq_sum, getCartTotal_eq_sum]
  exact congrArg _ (List.map_congr_left fun i _ => itemContribution_sel_irrel sel₁ sel₂ p i)

lemma mappedResults_sel_irrel (cart : List CartItem) (sel₁ sel₂ : Platform)
    (platforms : List PlatformInfo) :
    mappedResults cart sel₁ platforms = mappedResults cart sel₂ platforms := by
  unfold mappedResults
  refine List.map_congr_left fun pl _ => ?_
  unfold platformResult
  rw [getCartTotal_sel_irrel cart sel₁ sel₂ pl.id]

/-- C9: `evaluate` is deterministic and reads no hidden mutable state: its
output is a pure function of the cart and the platform catalog, and in
particular does not depend on the provider's `selectedPlatform` state (the
one closed-over variable of `getCartTotal`), so repeated calls with
unchanged inputs yield identical output. -/
theorem C9_evaluate_deterministic (cart : List CartItem)
    (platforms : List PlatformInfo) (sel₁ sel₂ : Platform) :
    sortedPlatforms cart sel₁ platforms = sortedPlatforms cart sel₂ platforms
    ∧ bestPlatform cart sel₁ platforms = bestPlatform cart sel₂ platforms := by
  have hm := mappedResults_sel_irrel cart sel₁ sel₂ platforms
  constructor
  · unfold sortedPlatforms
    rw [hm]
  · unfold bestPlatform sortedPlatforms
    rw [hm]

/-! ## C5 -/

lemma mappedResults_nil_cart (sel : Platform) (platforms : List PlatformInfo) :
    mappedResults [] sel platforms =
      platforms.map (fun q => ⟨q.id, q.name, [], true, 0⟩) := by
  unfold mappedResults
  refine List.map_congr_left fun q _ => ?_
  rfl

/-- Sorting a list of result records that all carry the same
`(available, total)` key leaves it unchanged: the comparator returns 0 on
every pair. -/
lemma insertionSort_nil_cart_results (platforms : List PlatformInfo) :
    List.insertionSort resRel
        (platforms.map (fun q => (⟨q.id, q.name, [], true, 0⟩ : PlatRes))) =
      platforms.map (fun q => ⟨q.id, q.name, [], true, 0⟩) := by
  apply List.Sorted.insertionSort_eq
  induction platforms with
  | nil => exact List.Pairwise.nil
  | cons q rest ih =>
    refine List.Pairwise.cons ?_ ih
    intro b hb
    obtain ⟨q', _, rfl⟩ := List.mem_map.mp hb
    simp [resRel, compareResults]

/-- C5: for the empty cart, every platform of the catalog is reported
available with total 0 and an empty unavailable-items list, in catalog
order, and the best deal is the first platform of the (non-empty) input. -/
theorem C5_empty_cart (sel : Platform) (pl : PlatformInfo)
    (rest : List PlatformInfo) :
    sortedPlatforms [] sel (pl :: rest) =
      (pl :: rest).map (fun q => ⟨q.id, q.name, [], true, 0⟩)
    ∧ bestPlatform [] sel (pl :: rest) = some ⟨pl.id, pl.name, [], true, 0⟩ := by
  have h1 : sortedPlatforms [] sel (pl :: rest) =
      (pl :: rest).map (fun q => ⟨q.id, q.name, [], true, 0⟩) := by
    unfold sortedPlatforms
    rw [mappedResults_nil_cart]
    exact insertionSort_nil_cart_results (pl :: rest)
  refine ⟨h1, ?_⟩
  unfold bestPlatform
  rw [h1]
  rfl

/-! ## The comparator is a consistent (total, transitive) comparison -/

instance : IsTotal PlatRes resRel := by
  constructor
  intro a b
  unfold resRel compareResults
  cases ha : a.available <;> cases hb : b.available <;> simp [ha, hb] <;> omega

instance : IsTrans PlatRes resRel := by
  constructor
  intro a b c hab hbc
  unfold resRel compareResults at hab hbc ⊢
  cases ha : a.available <;> cases hb : b.available <;> cases hc : c.available <;>
    simp [ha, hb, hc] at hab hbc ⊢ <;> omega

/-! ## C3 -/

/-- C3: the ranked sequence is sorted by the key `(¬available, total)`:
every available platform precedes every unavailable one, and within the
available group totals are ascending. -/
theorem C3_ranked_sorted_by_availability_then_total (cart : List CartItem)
    (sel : Platform) (platforms : List PlatformInfo) :
    (sortedPlatforms cart sel platforms).Pairwise
      (fun a b => (b.available = true → a.available = true)
        ∧ (a.available = true → b.available = true → a.total ≤ b.total)) := by
  have h := List.sorted_insertionSort resRel (mappedResults cart sel platforms)
  refine List.Pairwise.imp ?_ h
  intro a b hab
  unfold resRel compareResults at hab
  cases ha : a.available <;> cases hb : b.available <;>
    simp [ha, hb] at hab ⊢ <;> omega

/-! ## Stability of the sort (C7) -/

/-- Inserting `x` into a list never reorders the other elements, and if
every element sharing `x`'s filter class compares no-greater against `x`
in both directions, `x` lands after the class members already present
before it and before those after it — so filtering by the class commutes
with the insertion, appending `x` at the front of nothing it should
follow.  Precisely: provided any two elements selected by `p` are related
by `resRel`, filtering the insertion is the insertion into the filter. -/
lemma filter_orderedInsert_key (p : PlatRes → Bool)
    (hp : ∀ a b, p a = true → p b = true → resRel a b)
    (x : PlatRes) (l : List PlatRes) :
    (List.orderedInsert resRel x l).filter p =
      if p x then x :: l.filter p else l.filter p := by
  induction l with
  | nil => cases hpx : p x <;> simp [hpx]
  | cons y l ih =>
    by_cases hxy : resRel x y
    · rw [List.orderedInsert_of_le resRel l hxy]
      cases hpx : p x <;> simp [hpx, List.filter_cons]
    · have hrw : List.orderedInsert resRel x (y :: l) =
          y :: List.orderedInsert resRel x l := by
        simp [List.orderedInsert, hxy]
      rw [hrw]
      cases hpx : p x
      · simp only [hpx, if_neg Bool.false_ne_true] at ih ⊢
        rw [List.filter_cons, List.filter_cons, ih]
      · have hpy : p y = false := by
          cases hpy : p y
          · rfl
          · exact absurd (hp x y hpx hpy) hxy
        simp only [hpx, if_pos] at ih ⊢
        rw [List.filter_cons, List.filter_cons, hpy, ih]
        simp

lemma filter_insertionSort_key (p : PlatRes → Bool)
    (hp : ∀ a b, p a = true → p b = true → resRel a b)
    (l : List PlatRes) :
    (List.insertionSort resRel l).filter p = l.filter p := by
  induction l with
  | nil => rfl
  | cons x l ih =>
    rw [List.insertionSort, filter_orderedInsert_key p hp x _, ih, List.filter_cons]

/-- C7: the ranking is stable.  For every sort key `k = (available, total)`,
the subsequence of ranked records carrying key `k` equals the subsequence
of pre-sort (catalog-ordered) records carrying key `k`; equal-key records
therefore keep their relative input order.  In particular this covers any
two unavailable platforms (both carry key `(false, -1)`) and any two
available platforms with equal totals. -/
theorem C7_ranking_stable (cart : List CartItem) (sel : Platform)
    (platforms : List PlatformInfo) (k : Bool × Int) :
    (sortedPlatforms cart sel platforms).filter
        (fun r => decide ((r.available, r.total) = k)) =
      (mappedResults cart sel platforms).filter
        (fun r => decide ((r.available, r.total) = k)) := by
  unfold sortedPlatforms
  apply filter_insertionSort_key
  intro a b ha hb
  have ha' := of_decide_eq_true ha
  have hb' := of_decide_eq_true hb
  have hkey : (a.available, a.total) = (b.available, b.total) := ha'.trans hb'.symm
  have hav : a.available = b.available := congrArg Prod.fst hkey
  have htot : a.total = b.total := congrArg Prod.snd hkey
  unfold resRel compareResults
  rw [hav, htot]
  cases hb2 : b.available <;> simp [hb2]

/-! ## C4 -/

/-- Decomposition underlying `List.find?`: a found element satisfies the
predicate and splits the list into a prefix of non-satisfying elements,
the element, and a remainder. -/
lemma find?_decomposition {α : Type} (p : α → Bool) :
    ∀ {l : List α} {b : α}, l.find? p = some b →
      p b = true ∧ ∃ pre post, l = pre ++ b :: post ∧ ∀ x ∈ pre, p x = false := by
  intro l
  induction l with
  | nil => intro b h; simp [List.find?] at h
  | cons a l ih =>
    intro b h
    cases hpa : p a
    · rw [List.find?_cons_of_neg _ (by simp [hpa])] at h
      obtain ⟨hpb, pre, post, hl, hpre⟩ := ih h
      refine ⟨hpb, a :: pre, post, by rw [hl]; rfl, ?_⟩
      intro x hx
      rcases List.mem_cons.mp hx with rfl | hx
      · exact hpa
      · exact hpre x hx
    · rw [List.find?_cons_of_pos _ hpa] at h
      cases h
      exact ⟨hpa, [], l, rfl, by simp⟩

/-- C4: the best deal is the first element of the ranked sequence whose
`available` flag is true — it is available, and everything ranked before
it is unavailable; and it is absent (value `none`, never an exception —
the function is total) exactly when no platform of the catalog has every
cart item available. -/
theorem C4_best_deal_first_available (cart : List CartItem) (sel : Platform)
    (platforms : List PlatformInfo) :
    (bestPlatform cart sel platforms = none ↔
      ∀ pl ∈ platforms, areAllItemsAvailable cart pl.id = false)
    ∧ ∀ res, bestPlatform cart sel platforms = some res →
        res.available = true ∧
        ∃ pre post, sortedPlatforms cart sel platforms = pre ++ res :: post ∧
          ∀ x ∈ pre, x.available = false := by
  constructor
  · unfold bestPlatform
    rw [List.find?_eq_none]
    constructor
    · intro h pl hpl
      have hmem : platformResult cart sel pl ∈ sortedPlatforms cart sel platforms := by
        unfold sortedPlatforms
        rw [List.mem_insertionSort]
        exact List.mem_map_of_mem _ hpl
      have h2 := h _ hmem
      simpa [platformResult] using h2
    · intro h res hres
      unfold sortedPlatforms at hres
      rw [List.mem_insertionSort] at hres
      obtain ⟨pl, hpl, rfl⟩ := List.mem_map.mp hres
      simpa [platformResult] using h pl hpl
  · intro res h
    unfold bestPlatform at h
    obtain ⟨hpb, pre, post, hl, hpre⟩ := find?_decomposition _ h
    exact ⟨hpb, pre, post, hl, hpre⟩

/-- Witness for C4 at a concrete input: with an empty cart and catalog
`[blinkit]`, the best deal is the (available) `blinkit` record. -/
theorem C4_best_deal_first_available_witness :
    (⟨Platform.blinkit, "Blinkit", [], true, 0⟩ : PlatRes).available = true ∧
    ∃ pre post,
      sortedPlatforms [] Platform.zepto [⟨Platform.blinkit, "Blinkit"⟩] =
        pre ++ (⟨Platform.blinkit, "Blinkit", [], true, 0⟩ : PlatRes) :: post ∧
      ∀ x ∈ pre, x.available = false :=
  (C4_best_deal_first_available [] Platform.zepto [⟨Platform.blinkit, "Blinkit"⟩]).2
    ⟨Platform.blinkit, "Blinkit", [], true, 0⟩ (by decide)

/-! ## C8 -/

/-- Pointwise agreement of two price lists up to the price stored in
unavailable tuples: same platforms, same availability flags, and equal
prices wherever the tuple is available. -/
def pricesMatch : List PriceInfo → List PriceInfo → Bool
  | [], [] => true
  | p :: ps, q :: qs =>
      p.platform == q.platform && p.available == q.available &&
        (!p.available || p.price == q.price) && pricesMatch ps qs
  | _, _ => false

/-- Pointwise agreement of two carts up to prices stored in unavailable
tuples: same quantities, same pinned platforms, matching price lists. -/
def cartsMatch : List CartItem → List CartItem → Bool
  | [], [] => true
  | a :: l₁, b :: l₂ =>
      a.quantity == b.quantity && a.platform == b.platform &&
        pricesMatch a.product.prices b.product.prices && cartsMatch l₁ l₂
  | _, _ => false

lemma findPrice_match (ps qs : List PriceInfo) (h : pricesMatch ps qs = true)
    (P : Platform) :
    (findPrice ps P = none ∧ findPrice qs P = none) ∨
    ∃ pi qi, findPrice ps P = some pi ∧ findPrice qs P = some qi ∧
      pi.available = qi.available ∧ (pi.available = true → pi.price = qi.price) := by
  induction ps generalizing qs with
  | nil =>
    cases qs with
    | nil => exact Or.inl ⟨rfl, rfl⟩
    | cons q qs => simp [pricesMatch] at h
  | cons p ps ih =>
    cases qs with
    | nil => simp [pricesMatch] at h
    | cons q qs =>
      simp only [pricesMatch, Bool.and_eq_true, beq_iff_eq] at h
      obtain ⟨⟨⟨hplat, hav⟩, hpr⟩, hrest⟩ := h
      by_cases hp : p.platform = P
      · refine Or.inr ⟨p, q, ?_, ?_, hav, ?_⟩
        · unfold findPrice
          rw [List.find?_cons_of_pos _ (by simp [hp])]
        · unfold findPrice
          rw [List.find?_cons_of_pos _ (by simp [hplat.symm.trans hp])]
        · intro hpav
          rw [hpav] at hpr
          simpa using hpr
      · have hq : ¬ q.platform = P := fun hc => hp (hplat.trans hc)
        have h1 : findPrice (p :: ps) P = findPrice ps P := by
          unfold findPrice
          rw [List.find?_cons_of_neg _ (by simp [hp])]
        have h2 : findPrice (q :: qs) P = findPrice qs P := by
          unfold findPrice
          rw [List.find?_cons_of_neg _ (by simp [hq])]
        rw [h1, h2]
        exact ih qs hrest

lemma itemContribution_match (a b : CartItem) (hq : a.quantity = b.quantity)
    (hp : a.platform = b.platform)
    (hm : pricesMatch a.product.prices b.product.prices = true)
    (sel : Platform) (plat : Option Platform) :
    itemContribution sel plat a = itemContribution sel plat b := by
  unfold itemContribution
  rw [hp, hq]
  by_cases hcond : plat.isSome ∧ b.platform ≠ plat
  · simp [hcond]
  · simp only [if_neg hcond]
    rcases findPrice_match _ _ hm (b.platform.getD sel) with
      ⟨h1, h2⟩ | ⟨pi, qi, h1, h2, hav, hpr⟩
    · simp only [h1, h2]
    · simp only [h1, h2, ← hav]
      cases hpa : pi.available
      · simp [hpa]
      · simp [hpa, hpr hpa]

lemma availCheck_match (ps qs : List PriceInfo) (h : pricesMatch ps qs = true)
    (P : Platform) :
    (match findPrice ps P with
     | none => false
     | some pi => pi.available) =
    (match findPrice qs P with
     | none => false
     | some pi => pi.available) := by
  rcases findPrice_match ps qs h P with ⟨h1, h2⟩ | ⟨pi, qi, h1, h2, hav, _⟩
  · simp only [h1, h2]
  · simp only [h1, h2]
    exact hav

lemma allAvailable_match (c₁ c₂ : List CartItem) (h : cartsMatch c₁ c₂ = true)
    (P : Platform) :
    areAllItemsAvailable c₁ P = areAllItemsAvailable c₂ P := by
  induction c₁ generalizing c₂ with
  | nil =>
    cases c₂ with
    | nil => rfl
    | cons b l₂ => simp [cartsMatch] at h
  | cons a l₁ ih =>
    cases c₂ with
    | nil => simp [cartsMatch] at h
    | cons b l₂ =>
      simp only [cartsMatch, Bool.and_eq_true, beq_iff_eq] at h
      obtain ⟨⟨⟨_, _⟩, hm⟩, hrest⟩ := h
      unfold areAllItemsAvailable
      rw [List.all_cons, List.all_cons, availCheck_match _ _ hm P]
      have htail := ih l₂ hrest
      unfold areAllItemsAvailable at htail
      rw [htail]

lemma getCartTotal_match (c₁ c₂ : List CartItem) (h : cartsMatch c₁ c₂ = true)
    (sel : Platform) (plat : Option Platform) :
    getCartTotal c₁ sel plat = getCartTotal c₂ sel plat := by
  rw [getCartTotal_eq_sum, getCartTotal_eq_sum]
  induction c₁ generalizing c₂ with
  | nil =>
    cases c₂ with
    | nil => rfl
    | cons b l₂ => simp [cartsMatch] at h
  | cons a l₁ ih =>
    cases c₂ with
    | nil => simp [cartsMatch] at h
    | cons b l₂ =>
      simp only [cartsMatch, Bool.and_eq_true, beq_iff_eq] at h
      obtain ⟨⟨⟨hq, hp⟩, hm⟩, hrest⟩ := h
      rw [List.map_cons, List.map_cons, List.sum_cons, List.sum_cons,
        itemContribution_match a b hq hp hm sel plat, ih l₂ hrest]

/-- Observable part of a result record for C8: identity, availability and
total (the `unavailableItems` field carries the altered cart entries
themselves and is therefore excluded). -/
def resView (r : PlatRes) : Platform × Bool × Int := (r.id, r.available, r.total)

/-- The comparator relation transported along `resView` (the comparator
only ever reads the availability flag and the total). -/
def viewRel (a b : Platform × Bool × Int) : Prop :=
  (if a.2.1 && !b.2.1 then (-1 : Int)
   else if !a.2.1 && b.2.1 then 1
   else a.2.2 - b.2.2) ≤ 0

instance : DecidableRel viewRel := fun a b =>
  inferInstanceAs (Decidable ((if a.2.1 && !b.2.1 then (-1 : Int)
    else if !a.2.1 && b.2.1 then 1 else a.2.2 - b.2.2) ≤ 0))

lemma resRel_iff_viewRel (a b : PlatRes) :
    resRel a b ↔ viewRel (resView a) (resView b) := Iff.rfl

lemma mappedResults_views_match (c₁ c₂ : List CartItem)
    (h : cartsMatch c₁ c₂ = true) (sel : Platform)
    (platforms : List PlatformInfo) :
    (mappedResults c₁ sel platforms).map resView =
      (mappedResults c₂ sel platforms).map resView := by
  unfold mappedResults
  rw [List.map_map, List.map_map]
  refine List.map_congr_left fun pl _ => ?_
  show resView (platformResult c₁ sel pl) = resView (platformResult c₂ sel pl)
  unfold resView platformResult
  simp only
  rw [allAvailable_match c₁ c₂ h pl.id, getCartTotal_match c₁ c₂ h sel (some pl.id)]

lemma sorted_views_match (c₁ c₂ : List CartItem) (h : cartsMatch c₁ c₂ = true)
    (sel : Platform) (platforms : List PlatformInfo) :
    (sortedPlatforms c₁ sel platforms).map resView =
      (sortedPlatforms c₂ sel platforms).map resView := by
  unfold sortedPlatforms
  rw [List.map_insertionSort resRel viewRel resView _
      (fun a _ b _ => resRel_iff_viewRel a b),
    List.map_insertionSort resRel viewRel resView _
      (fun a _ b _ => resRel_iff_viewRel a b),
    mappedResults_views_match c₁ c₂ h sel platforms]

/-- C8: the price stored in an unavailable tuple never influences a total.
For any two carts that agree except possibly on the prices of tuples whose
availability flag is `false`, `getCartTotal` agrees (for every platform
argument and every hidden selected platform), and every ranked record of
`evaluate` agrees on identity, availability and total. -/
theorem C8_unavailable_price_never_counted (c₁ c₂ : List CartItem)
    (h : cartsMatch c₁ c₂ = true) (sel : Platform) (plat : Option Platform)
    (platforms : List PlatformInfo) :
    getCartTotal c₁ sel plat = getCartTotal c₂ sel plat ∧
    (sortedPlatforms c₁ sel platforms).map resView =
      (sortedPlatforms c₂ sel platforms).map resView :=
  ⟨getCartTotal_match c₁ c₂ h sel plat, sorted_views_match c₁ c₂ h sel platforms⟩

/-- Witness for C8: changing the price in `productA`'s unavailable `zepto`
tuple from 8 to 999 changes neither any total nor any ranked record's
observable fields. -/
theorem C8_unavailable_price_never_counted_witness :
    cartsMatch exampleCart exampleCartAlt = true ∧
    (getCartTotal exampleCart Platform.zepto none =
        getCartTotal exampleCartAlt Platform.zepto none ∧
      (sortedPlatforms exampleCart Platform.zepto examplePlatforms).map resView =
        (sortedPlatforms exampleCartAlt Platform.zepto examplePlatforms).map resView) :=
  ⟨by decide,
    C8_unavailable_price_never_counted exampleCart exampleCartAlt (by decide)
      Platform.zepto none examplePlatforms⟩

/-! ## C10 -/

/-- The relevant state of the `ShopContext` provider. -/
structure ShopState where
  cart : List CartItem
  platforms : List PlatformInfo
  selectedPlatform : Platform

/-- State-passing embedding of the comparison computation.  In the source,
`platforms.map(...)` allocates a fresh array, `.sort(...)` mutates only
that fresh array (`Array.prototype.sort` sorts its receiver), and
`cart.filter` / `cart.every` / `cart.reduce` allocate fresh results, so no
step writes to the store; the embedding returns the store it was given. -/
def evaluateS (s : ShopState) : List PlatRes × ShopState :=
  (List.insertionSort resRel (mappedResults s.cart s.selectedPlatform s.platforms), s)

/-- C10: `evaluate` does not modify its inputs — after it runs, the cart,
the platform catalog and the selected platform of the store are unchanged
element for element, and the ranked result is a permutation of the freshly
mapped records: the sort is applied to the fresh map, not to the input. -/
theorem C10_inputs_unchanged (s : ShopState) :
    (evaluateS s).2.cart = s.cart ∧ (evaluateS s).2.platforms = s.platforms ∧
    (evaluateS s).2.selectedPlatform = s.selectedPlatform ∧
    List.Perm (evaluateS s).1
      (mappedResults s.cart s.selectedPlatform s.platforms) ∧
    (evaluateS s).1 = sortedPlatforms s.cart s.selectedPlatform s.platforms :=
  ⟨rfl, rfl, rfl, List.perm_insertionSort resRel _, rfl⟩

end QuickPrice
